import Mathlib

/-!
Verification of the TPFA finite-volume diffusion discretization in
`src/task2/src/diffusion_fvm.cpp`.

The C++ program discretizes a steady anisotropic diffusion equation on a 2D
polygonal mesh.  We shallowly embed its core: the one-sided transmissibility
`calc_tf`, the field initializer `Problem::initProblem` (global-index
assignment, boundary-condition classification, interface-conductivity
precomputation), the assembler `Problem::assembleGlobalSystem`, and the
driver `Problem::run`.

Modelling conventions:
- C++ `double` arithmetic is modelled by `ℚ` (exact field arithmetic; the
  claims under study are algebraic/structural, not rounding claims).
- The transcendental analytical solution `C(x,y) = sin(ax)·sin(ay)` and the
  matching source term are modelled as parameters `Canal srcFn : ℚ → ℚ → ℚ`:
  every claim is independent of their specific values.
- The INMOST mesh is modelled as a list of cells and a list of raw faces; an
  invalid `FrontCell()` handle is modelled by `frontCell = none`.
- `exit(1)` paths are modelled by `Except` / explicit error results.
- The sparse matrix is modelled as a total function `ℕ → ℕ → ℚ` (zero
  outside the assembled band), the rhs as `ℕ → ℚ`; `+=`/`-=` become
  pointwise functional updates applied in the source order.
-/

namespace DiffusionFVM

/-- A 2D point / vector (mesh barycenters, normals, displacements). -/
structure Vec2 where
  x : ℚ
  y : ℚ
deriving DecidableEq, Repr

/-- A general 2×2 matrix, as built by `rMatrix DA(2,2)` in the source. -/
structure Mat2 where
  a00 : ℚ
  a01 : ℚ
  a10 : ℚ
  a11 : ℚ
deriving DecidableEq, Repr

/-- The 3-component per-cell diffusion tensor tag `(Dx, Dy, Dxy)`
(source lines 109-111: `tagD` holds 3 reals). -/
structure Tensor3 where
  tdx : ℚ
  tdy : ℚ
  tdxy : ℚ
deriving DecidableEq, Repr

/-- Global constant `dx = 1.0` (source line 8). -/
def dxConst : ℚ := 1

/-- Global constant `dy = 1.0` (source line 9). -/
def dyConst : ℚ := 1

/-- Global constant `dxy = 0.0` (source line 10). -/
def dxyConst : ℚ := 0

/-- Expansion of the 3-component tensor into the symmetric 2×2 matrix, as at
source lines 148-152 and 193-197: `DA(0,0)=Dx, DA(0,1)=DA(1,0)=Dxy,
DA(1,1)=Dy`. -/
def buildD (t : Tensor3) : Mat2 :=
  { a00 := t.tdx, a01 := t.tdxy, a10 := t.tdxy, a11 := t.tdy }

/-- `calc_tf` (source lines 80-87): the one-sided transmissibility.
Computes `DdA = D · dA` componentwise, then
`(DdA·nf) / (dA·dA)`, exactly as written in the C++. -/
def calc_tf (D : Mat2) (nf : Vec2) (dA : Vec2) : ℚ :=
  let DdA0 := D.a00 * dA.x + D.a01 * dA.y
  let DdA1 := D.a10 * dA.x + D.a11 * dA.y
  (DdA0 * nf.x + DdA1 * nf.y) / (dA.x * dA.x + dA.y * dA.y)

/-- Spec-side definition: matrix-vector product `D·d`. -/
def mat2MulVec (D : Mat2) (d : Vec2) : Vec2 :=
  { x := D.a00 * d.x + D.a01 * d.y, y := D.a10 * d.x + D.a11 * d.y }

/-- Spec-side definition: Euclidean inner product of two 2D vectors. -/
def dot2 (u v : Vec2) : ℚ :=
  u.x * v.x + u.y * v.y

/-- Spec-side definition of the one-sided transmissibility contract:
`(D·d)·n / (d·d)`. -/
def tfSpec (D : Mat2) (n d : Vec2) : ℚ :=
  dot2 (mat2MulVec D d) n / dot2 d d

/-- Componentwise negation of a 2D vector (flip of the face unit normal when
the back/front roles of the two adjacent cells are exchanged). -/
def negV (v : Vec2) : Vec2 :=
  { x := -v.x, y := -v.y }

/-- The interface-conductivity combination stored on an internal face
(source line 162): `tfA * tfB / (tfA - tfB)`. -/
def interfaceCond (tfA tfB : ℚ) : ℚ :=
  tfA * tfB / (tfA - tfB)

/-- Spec-side model of the same combination with real (partial) division:
division by a zero denominator is undefined, so the result is `none` exactly
when `tfA - tfB = 0`. -/
def interfaceCondChecked (tfA tfB : ℚ) : Option ℚ :=
  if tfA - tfB = 0 then none else some (tfA * tfB / (tfA - tfB))

/-- Boundary-condition enum (source lines 23-27): `BC_DIR = 1`. -/
def BC_DIR : ℤ := 1

/-- Boundary-condition enum (source lines 23-27): `BC_NEUM = 2`. -/
def BC_NEUM : ℤ := 2

/-- Raw per-cell mesh data consumed from the INMOST collaborator:
`c.Barycenter(xc)` and `c.Volume()`. -/
structure CellData where
  bary : Vec2
  volume : ℚ
deriving DecidableEq, Repr

/-- Per-cell fields after `initProblem`'s cell loop (source lines 106-118):
diffusion tensor, analytical solution, source value, global index. -/
structure CellFields where
  bary : Vec2
  volume : ℚ
  tensor : Tensor3
  concAn : ℚ
  sourceVal : ℚ
  globInd : ℕ
deriving DecidableEq, Repr

instance : Inhabited CellFields :=
  ⟨{ bary := ⟨0, 0⟩, volume := 0, tensor := ⟨0, 0, 0⟩, concAn := 0,
     sourceVal := 0, globInd := 0 }⟩

/-- The cell loop of `initProblem` (source lines 106-118): for each cell set
the tensor to the global constants, evaluate the analytical solution `C` and
the source term at the cell barycenter, and assign the running global index
`glob_ind`, incrementing it per cell.  `Canal` and `srcFn` are the
transcendental functions `C` and `source` (lines 13-21), taken as
parameters. -/
def initCells (Canal srcFn : ℚ → ℚ → ℚ) : List CellData → ℕ → List CellFields
  | [], _ => []
  | c :: rest, gi =>
      { bary := c.bary, volume := c.volume,
        tensor := { tdx := dxConst, tdy := dyConst, tdxy := dxyConst },
        concAn := Canal c.bary.x c.bary.y,
        sourceVal := srcFn c.bary.x c.bary.y,
        globInd := gi } :: initCells Canal srcFn rest (gi + 1)

/-- Raw per-face mesh data consumed from the INMOST collaborator: barycenter,
unit outward normal, area, the `Boundary()` predicate, and the two adjacent
cells.  `BackCell()` is always valid; an invalid `FrontCell()` handle
(`!cB.isValid()`) is modelled as `frontCell = none`.  Adjacent cells are
indices into the cell list. -/
structure RawFace where
  bary : Vec2
  normal : Vec2
  area : ℚ
  isBoundary : Bool
  backCell : ℕ
  frontCell : Option ℕ
deriving DecidableEq, Repr

/-- A boundary face after `initProblem`: the stored `BC_type` and `BC_value`
tags, together with the geometric data the assembler re-reads from the
mesh. -/
structure BFace where
  bctype : ℤ
  bcval : ℚ
  bary : Vec2
  normal : Vec2
  area : ℚ
  back : ℕ
deriving DecidableEq, Repr

/-- An internal face after `initProblem`: the stored `BC_conductivity` tag,
the area, and the two (resolved, valid) adjacent cells. -/
structure IFace where
  cond : ℚ
  area : ℚ
  back : ℕ
  front : ℕ
deriving DecidableEq, Repr

/-- A face after `initProblem`'s face loop. -/
inductive InitFace where
  | bnd : BFace → InitFace
  | int : IFace → InitFace
deriving DecidableEq, Repr

/-- The fatal topology error of source lines 133-136: `exit(1)` after
`"Invalid FrontCell!"`. -/
inductive TopologyError where
  | invalidFrontCell : TopologyError
deriving DecidableEq, Repr

/-- Cell lookup by adjacency handle (INMOST's `Cell` handle dereference). -/
def cellAt (cells : List CellFields) (i : ℕ) : CellFields :=
  cells.getD i default

/-- `c.Integer(tagGlobInd)` for the cell behind handle `i`. -/
def globIndAt (cells : List CellFields) (i : ℕ) : ℕ :=
  (cellAt cells i).globInd

/-- Displacement from a cell barycenter to the face barycenter:
`dA[i] = xf[i] - xA[i]` (source lines 143-146 and 191). -/
def displ (xf xA : Vec2) : Vec2 :=
  { x := xf.x - xA.x, y := xf.y - xA.y }

/-- The one-sided transmissibility `tfA` of an internal face (source lines
148-153): tensor of the back cell, shared unit normal, displacement from the
back-cell center to the face center. -/
def internalTfA (cells : List CellFields) (f : RawFace) : ℚ :=
  calc_tf (buildD (cellAt cells f.backCell).tensor) f.normal
    (displ f.bary (cellAt cells f.backCell).bary)

/-- The one-sided transmissibility `tfB` of an internal face (source lines
155-160), computed from the front cell `fc`. -/
def internalTfB (cells : List CellFields) (f : RawFace) (fc : ℕ) : ℚ :=
  calc_tf (buildD (cellAt cells fc).tensor) f.normal
    (displ f.bary (cellAt cells fc).bary)

/-- One iteration of `initProblem`'s face loop (source lines 122-164).
Boundary face: store `BC_type = BC_DIR` and `BC_value = C(xf)`.  Internal
face: resolve back and front cells, fatally fail when the front cell is
invalid, otherwise store the interface conductivity
`tfA * tfB / (tfA - tfB)`. -/
def initFace (Canal : ℚ → ℚ → ℚ) (cells : List CellFields) (f : RawFace) :
    Except TopologyError InitFace :=
  if f.isBoundary then
    .ok (.bnd { bctype := BC_DIR, bcval := Canal f.bary.x f.bary.y,
                bary := f.bary, normal := f.normal, area := f.area,
                back := f.backCell })
  else
    match f.frontCell with
    | none => .error .invalidFrontCell
    | some fc =>
        .ok (.int { cond := interfaceCond (internalTfA cells f)
                      (internalTfB cells f fc),
                    area := f.area, back := f.backCell, front := fc })

/-- The face loop of `initProblem`, aborting at the first invalid front
cell (the C++ loop `exit(1)`s there). -/
def initFaces (Canal : ℚ → ℚ → ℚ) (cells : List CellFields) :
    List RawFace → Except TopologyError (List InitFace)
  | [] => .ok []
  | f :: rest =>
      match initFace Canal cells f with
      | .error e => .error e
      | .ok g =>
          match initFaces Canal cells rest with
          | .error e => .error e
          | .ok gs => .ok (g :: gs)

/-- A single `M[r][c] += v` update on the global sparse matrix. -/
def addM (M : ℕ → ℕ → ℚ) (r c : ℕ) (v : ℚ) : ℕ → ℕ → ℚ :=
  fun i j => if i = r ∧ j = c then M i j + v else M i j

/-- A single `rhs[r] += v` update on the right-hand-side vector. -/
def addV (b : ℕ → ℚ) (r : ℕ) (v : ℚ) : ℕ → ℚ :=
  fun i => if i = r then b i + v else b i

/-- The one-sided transmissibility `t` recomputed for a Dirichlet boundary
face during assembly (source lines 185-199): tensor of the back cell, face
unit normal, displacement from the cell center to the face center. -/
def bndTf (cells : List CellFields) (bf : BFace) : ℚ :=
  calc_tf (buildD (cellAt cells bf.back).tensor) bf.normal
    (displ bf.bary (cellAt cells bf.back).bary)

/-- One iteration of the face loop of `assembleGlobalSystem` (source lines
172-225), acting on the pair (matrix, rhs).
Boundary with `BC_NEUM`: `continue` (no contribution); boundary with
`BC_DIR`: `M[id][id] -= t*Area` and `rhs[id] -= t*BCval*Area`; internal:
the symmetric four-entry TPFA stencil with `t = BC_conductivity`, applied
in the source's order (lines 220-223). -/
def assembleFace (cells : List CellFields) (Mb : (ℕ → ℕ → ℚ) × (ℕ → ℚ))
    (f : InitFace) : (ℕ → ℕ → ℚ) × (ℕ → ℚ) :=
  match f with
  | .bnd bf =>
      if bf.bctype = BC_NEUM then Mb
      else if bf.bctype = BC_DIR then
        let t := bndTf cells bf
        let id := globIndAt cells bf.back
        (addM Mb.1 id id (-(t * bf.area)),
         addV Mb.2 id (-(t * bf.bcval * bf.area)))
      else Mb
  | .int g =>
      let idA := globIndAt cells g.back
      let idB := globIndAt cells g.front
      let M1 := addM Mb.1 idA idA (g.cond * g.area)
      let M2 := addM M1 idA idB (-(g.cond * g.area))
      let M3 := addM M2 idB idA (-(g.cond * g.area))
      let M4 := addM M3 idB idB (g.cond * g.area)
      (M4, Mb.2)

/-- The cell loop of `assembleGlobalSystem` (source lines 226-230):
`rhs[i] -= source * Volume` for every cell. -/
def assembleCells (cells : List CellFields) (b : ℕ → ℚ) : ℕ → ℚ :=
  cells.foldl (fun b c => addV b c.globInd (-(c.sourceVal * c.volume))) b

/-- `Problem::assembleGlobalSystem` (source lines 167-231): starting from the
all-zero matrix and rhs, walk all faces, then all cells. -/
def assembleGlobalSystem (cells : List CellFields) (faces : List InitFace) :
    (ℕ → ℕ → ℚ) × (ℕ → ℚ) :=
  let Mb := faces.foldl (assembleFace cells) (fun _ _ => 0, fun _ => 0)
  (Mb.1, assembleCells cells Mb.2)

/-- Outcome of the external sparse solver `S.Solve(rhs, sol)` together with
the diagnostics the driver queries afterwards (`Iterations()`, `Residual()`,
`GetReason()`). -/
structure SolveResult where
  solved : Bool
  iterations : ℤ
  residual : ℚ
  reason : String
  sol : ℕ → ℚ

/-- One line of driver diagnostics, in the order printed by `Problem::run`. -/
inductive OutputEvent where
  | iterCount : ℤ → OutputEvent
  | residual : ℚ → OutputEvent
  | failReason : String → OutputEvent
  | errNormC : ℚ → OutputEvent
  | errNormL2 : ℚ → OutputEvent
deriving DecidableEq, Repr

/-- Final state of a successful run: each cell paired with the solution
value written back into its `Concentration` tag, plus the two error norms. -/
structure FinalState where
  cellsWithConc : List (CellFields × ℚ)
  normC : ℚ
  normL2 : ℚ

/-- The write-back loop of `Problem::run` (source lines 268-275):
`c.Real(tagConc) = sol[ind]` by global index. -/
def writeBack (cells : List CellFields) (sol : ℕ → ℚ) :
    List (CellFields × ℚ) :=
  cells.map (fun c => (c, sol c.globInd))

/-- C-norm accumulation of source lines 267-275: the maximum of
`|conc - concAn|` over cells, starting from `0.0`. -/
def cnorm (wc : List (CellFields × ℚ)) : ℚ :=
  wc.foldl (fun acc p => max acc |p.2 - p.1.concAn|) 0

/-- L2-like norm accumulation of source lines 267-275: the sum of
`|conc - concAn| * Volume` over cells, starting from `0.0`. -/
def l2norm (wc : List (CellFields × ℚ)) : ℚ :=
  wc.foldl (fun acc p => acc + |p.2 - p.1.concAn| * p.1.volume) 0

/-- `Problem::run` after assembly (source lines 249-280): invoke the solver,
print iteration count and residual unconditionally, then either print the
failure reason and `exit(1)` (modelled as `Except.error 1`, with no
write-back and no norms), or write the solution back, compute both error
norms and report them. -/
def run (cells : List CellFields) (faces : List InitFace)
    (solve : (ℕ → ℕ → ℚ) → (ℕ → ℚ) → SolveResult) :
    List OutputEvent × Except ℤ FinalState :=
  let Ab := assembleGlobalSystem cells faces
  let res := solve Ab.1 Ab.2
  let out := [OutputEvent.iterCount res.iterations,
              OutputEvent.residual res.residual]
  if res.solved then
    let wc := writeBack cells res.sol
    let nC := cnorm wc
    let nL2 := l2norm wc
    (out ++ [OutputEvent.errNormC nC, OutputEvent.errNormL2 nL2],
     .ok { cellsWithConc := wc, normC := nC, normL2 := nL2 })
  else
    (out ++ [OutputEvent.failReason res.reason], .error 1)

/-- Result of one whole mesh run (`P.initProblem(); P.run();`, source lines
292-294).  A topology error aborts during initialization: no matrix, no
rhs, no solver output exists in that case. -/
inductive ProgResult where
  | topologyFatal : ℤ → ProgResult
  | solverFatal : ℤ → List OutputEvent → ProgResult
  | done : List OutputEvent → FinalState → ProgResult

/-- One whole mesh run: initialize cell fields, initialize face fields
(possibly aborting with `exit(1)` on an invalid front cell), then assemble
and solve. -/
def wholeProgram (Canal srcFn : ℚ → ℚ → ℚ) (rawCells : List CellData)
    (rawFaces : List RawFace)
    (solve : (ℕ → ℕ → ℚ) → (ℕ → ℚ) → SolveResult) : ProgResult :=
  let cells := initCells Canal srcFn rawCells 0
  match initFaces Canal cells rawFaces with
  | .error _ => .topologyFatal 1
  | .ok faces =>
      match run cells faces solve with
      | (out, .error c) => .solverFatal c out
      | (out, .ok fin) => .done out fin

/-- The net contribution of one face to matrix entry `(i, j)`: the four-entry
stencil for an internal face, the single diagonal entry for a Dirichlet
boundary face, nothing for a Neumann (or unclassified) boundary face. -/
def entryContrib (cells : List CellFields) (f : InitFace) (i j : ℕ) : ℚ :=
  match f with
  | .bnd bf =>
      if bf.bctype = BC_NEUM then 0
      else if bf.bctype = BC_DIR then
        (if i = globIndAt cells bf.back ∧ j = globIndAt cells bf.back then
          -(bndTf cells bf * bf.area) else 0)
      else 0
  | .int g =>
      (if i = globIndAt cells g.back ∧ j = globIndAt cells g.back then
        g.cond * g.area else 0) +
      (if i = globIndAt cells g.back ∧ j = globIndAt cells g.front then
        -(g.cond * g.area) else 0) +
      (if i = globIndAt cells g.front ∧ j = globIndAt cells g.back then
        -(g.cond * g.area) else 0) +
      (if i = globIndAt cells g.front ∧ j = globIndAt cells g.front then
        g.cond * g.area else 0)

/-- The Dirichlet boundary diagonal contribution `-(t * area)` of a face to
row `i`; zero for internal and Neumann faces. -/
def dirDiagContrib (cells : List CellFields) (f : InitFace) (i : ℕ) : ℚ :=
  match f with
  | .bnd bf =>
      if bf.bctype = BC_NEUM then 0
      else if bf.bctype = BC_DIR then
        (if i = globIndAt cells bf.back then -(bndTf cells bf * bf.area) else 0)
      else 0
  | .int _ => 0

/-- An internal face links the (unordered) pair of global indices `{i, j}`. -/
def linksPair (cells : List CellFields) (f : InitFace) (i j : ℕ) : Prop :=
  match f with
  | .bnd _ => False
  | .int g =>
      (globIndAt cells g.back = i ∧ globIndAt cells g.front = j) ∨
      (globIndAt cells g.back = j ∧ globIndAt cells g.front = i)

instance (cells : List CellFields) (f : InitFace) (i j : ℕ) :
    Decidable (linksPair cells f i j) :=
  match f with
  | .bnd _ => inferInstanceAs (Decidable False)
  | .int _ => inferInstanceAs (Decidable (Or _ _))

/-- All global indices a face touches lie below the system size `N`. -/
def faceIdxBound (cells : List CellFields) (N : ℕ) : InitFace → Prop
  | .bnd bf => globIndAt cells bf.back < N
  | .int g => globIndAt cells g.back < N ∧ globIndAt cells g.front < N

instance (cells : List CellFields) (N : ℕ) (f : InitFace) :
    Decidable (faceIdxBound cells N f) :=
  match f with
  | .bnd _ => inferInstanceAs (Decidable (_ < _))
  | .int _ => inferInstanceAs (Decidable (And _ _))

/-- The stored `BC_type` of an initialized face, when it has one. -/
def bctypeOf : InitFace → Option ℤ
  | .bnd bf => some bf.bctype
  | .int _ => none

/-- The solver outcome the driver branches on: the solver applied to the
assembled system. -/
def solveOutcome (cells : List CellFields) (faces : List InitFace)
    (solve : (ℕ → ℕ → ℚ) → (ℕ → ℚ) → SolveResult) : SolveResult :=
  solve (assembleGlobalSystem cells faces).1 (assembleGlobalSystem cells faces).2

/-- Concrete two-cell fixture: cell 0 at the origin, cell 1 at `(2,0)`,
identity tensors, global indices 0 and 1. -/
def wCells : List CellFields :=
  [{ bary := ⟨0, 0⟩, volume := 1, tensor := ⟨1, 1, 0⟩, concAn := 0,
     sourceVal := 0, globInd := 0 },
   { bary := ⟨2, 0⟩, volume := 1, tensor := ⟨1, 1, 0⟩, concAn := 0,
     sourceVal := 0, globInd := 1 }]

/-- Concrete internal face between the two fixture cells. -/
def wIFace : IFace := { cond := 3, area := 2, back := 0, front := 1 }

/-- Concrete Dirichlet boundary face attached to fixture cell 0. -/
def wBFace : BFace :=
  { bctype := 1, bcval := 5, bary := ⟨-1, 0⟩, normal := ⟨-1, 0⟩, area := 1,
    back := 0 }

/-- Concrete face list for the fixture mesh. -/
def wFaces : List InitFace := [InitFace.int wIFace, InitFace.bnd wBFace]

/-- Concrete malformed raw face: internal but with an unresolvable front
cell. -/
def wBadFace : RawFace :=
  { bary := ⟨1, 0⟩, normal := ⟨1, 0⟩, area := 1, isBoundary := false,
    backCell := 0, frontCell := none }

/-- Concrete boundary raw face. -/
def wBndRaw : RawFace :=
  { bary := ⟨1, 2⟩, normal := ⟨1, 0⟩, area := 1, isBoundary := true,
    backCell := 0, frontCell := none }

/-- Degenerate fixture: two coincident cells, so the two one-sided
transmissibilities of the face between them coincide. -/
def wDegCells : List CellFields :=
  [{ bary := ⟨0, 0⟩, volume := 1, tensor := ⟨1, 1, 0⟩, concAn := 0,
     sourceVal := 0, globInd := 0 },
   { bary := ⟨0, 0⟩, volume := 1, tensor := ⟨1, 1, 0⟩, concAn := 0,
     sourceVal := 0, globInd := 1 }]

/-- Internal raw face of the degenerate fixture. -/
def wDegFace : RawFace :=
  { bary := ⟨1, 0⟩, normal := ⟨1, 0⟩, area := 1, isBoundary := false,
    backCell := 0, frontCell := some 1 }

/-- A solver stub that always reports failure. -/
def wFailSolver : (ℕ → ℕ → ℚ) → (ℕ → ℚ) → SolveResult :=
  fun _ _ => { solved := false, iterations := 7, residual := 1,
               reason := "diverged", sol := fun _ => 0 }

/-- A solver stub that always reports success. -/
def wOkSolver : (ℕ → ℕ → ℚ) → (ℕ → ℚ) → SolveResult :=
  fun _ _ => { solved := true, iterations := 1, residual := 0,
               reason := "", sol := fun _ => 0 }

/-- Identity tensor fixture for the transmissibility contract. -/
def wD : Mat2 := { a00 := 1, a01 := 0, a10 := 0, a11 := 1 }

/-- Unit-normal fixture. -/
def wN : Vec2 := ⟨1, 0⟩

/-- Nonzero displacement fixture. -/
def wDisp : Vec2 := ⟨1, 0⟩

theorem addM_apply (M : ℕ → ℕ → ℚ) (r c : ℕ) (v : ℚ) (i j : ℕ) :
    addM M r c v i j = M i j + (if i = r ∧ j = c then v else 0) := by
  unfold addM
  split_ifs <;> simp

theorem addV_apply (b : ℕ → ℚ) (r : ℕ) (v : ℚ) (i : ℕ) :
    addV b r v i = b i + (if i = r then v else 0) := by
  unfold addV
  split_ifs <;> simp

theorem assembleFace_fst (cells : List CellFields)
    (Mb : (ℕ → ℕ → ℚ) × (ℕ → ℚ)) (f : InitFace) (i j : ℕ) :
    (assembleFace cells Mb f).1 i j = Mb.1 i j + entryContrib cells f i j := by
  cases f with
  | bnd bf =>
      by_cases h2 : bf.bctype = BC_NEUM
      · simp [assembleFace, entryContrib, h2]
      · by_cases h1 : bf.bctype = BC_DIR
        · simp [assembleFace, entryContrib, h2, h1, BC_DIR, BC_NEUM, addM_apply]
        · simp [assembleFace, entryContrib, h2, h1]
  | int g =>
      simp only [assembleFace, entryContrib, addM_apply]
      ring

theorem foldFaces_fst (cells : List CellFields) (faces : List InitFace)
    (Mb : (ℕ → ℕ → ℚ) × (ℕ → ℚ)) (i j : ℕ) :
    (faces.foldl (assembleFace cells) Mb).1 i j =
      Mb.1 i j + (faces.map (fun f => entryContrib cells f i j)).sum := by
  induction faces generalizing Mb with
  | nil => simp
  | cons f rest ih =>
      simp only [List.foldl_cons, List.map_cons, List.sum_cons]
      rw [ih, assembleFace_fst]
      ring

/-- The assembled matrix entry is the sum of the per-face contributions (the
final cell loop touches only the rhs). -/
theorem assembled_entry (cells : List CellFields) (faces : List InitFace)
    (i j : ℕ) :
    (assembleGlobalSystem cells faces).1 i j =
      (faces.map (fun f => entryContrib cells f i j)).sum := by
  unfold assembleGlobalSystem
  simpa using foldFaces_fst cells faces (fun _ _ => 0, fun _ => 0) i j

theorem ite_and_decomp (p q : Prop) [Decidable p] [Decidable q] (v : ℚ) :
    (if p ∧ q then v else 0) =
      (if p then (1 : ℚ) else 0) * ((if q then (1 : ℚ) else 0) * v) := by
  by_cases hp : p <;> by_cases hq : q <;> simp [hp, hq]

theorem entryContrib_symm (cells : List CellFields) (f : InitFace) (i j : ℕ) :
    entryContrib cells f i j = entryContrib cells f j i := by
  cases f with
  | bnd bf =>
      simp only [entryContrib]
      split_ifs with h1 h2 h3 h4 <;> simp_all [and_comm]
  | int g =>
      simp only [entryContrib, ite_and_decomp]
      ring

theorem map_sum_congr {α : Type} (l : List α) (f g : α → ℚ)
    (h : ∀ x ∈ l, f x = g x) : (l.map f).sum = (l.map g).sum := by
  induction l with
  | nil => simp
  | cons a as ih =>
      simp only [List.map_cons, List.sum_cons]
      rw [h a (List.mem_cons_self a as), ih (fun x hx => h x (List.mem_cons_of_mem a hx))]

theorem map_sum_zero {α : Type} (l : List α) (f : α → ℚ)
    (h : ∀ x ∈ l, f x = 0) : (l.map f).sum = 0 := by
  rw [map_sum_congr l f (fun _ => 0) h]
  simp

theorem entryContrib_offdiag_zero (cells : List CellFields) (f : InitFace)
    (i j : ℕ) (hij : i ≠ j) (hlk : ¬ linksPair cells f i j) :
    entryContrib cells f i j = 0 := by
  cases f with
  | bnd bf =>
      simp only [entryContrib]
      split_ifs with h1 h2 h3 <;> try rfl
      exact absurd (h3.1.trans h3.2.symm) hij
  | int g =>
      simp only [linksPair, not_or, not_and] at hlk
      simp only [entryContrib]
      by_cases hiA : i = globIndAt cells g.back <;>
        by_cases hiB : i = globIndAt cells g.front <;>
        by_cases hjA : j = globIndAt cells g.back <;>
        by_cases hjB : j = globIndAt cells g.front <;>
        simp_all

theorem entryContrib_rowsum (cells : List CellFields) (N : ℕ) (f : InitFace)
    (hf : faceIdxBound cells N f) (i : ℕ) :
    Finset.sum (Finset.range N) (fun j => entryContrib cells f i j) =
      dirDiagContrib cells f i := by
  cases f with
  | bnd bf =>
      have hlt : globIndAt cells bf.back < N := hf
      simp only [entryContrib, dirDiagContrib]
      by_cases h2 : bf.bctype = BC_NEUM
      · simp [h2]
      · by_cases h1 : bf.bctype = BC_DIR
        · simp only [h2, h1, if_true, if_false]
          by_cases hi : i = globIndAt cells bf.back
          · simp [hi, Finset.sum_ite_eq', Finset.mem_range, hlt]
          · simp [hi]
        · simp [h2, h1]
  | int g =>
      have hA : globIndAt cells g.back < N := hf.1
      have hB : globIndAt cells g.front < N := hf.2
      simp only [entryContrib, dirDiagContrib]
      rw [Finset.sum_add_distrib, Finset.sum_add_distrib, Finset.sum_add_distrib]
      by_cases hiA : i = globIndAt cells g.back
      · subst hiA
        by_cases heq : globIndAt cells g.back = globIndAt cells g.front
        · simp only [← heq]
          simp [Finset.sum_ite_eq', Finset.mem_range, hA]
        · simp [heq, Finset.sum_ite_eq', Finset.mem_range, hA, hB]
      · by_cases hiB : i = globIndAt cells g.front
        · subst hiB
          have hne : globIndAt cells g.back ≠ globIndAt cells g.front := by
            intro h
            exact hiA h.symm
          simp [hne, Ne.symm hne, hiA, Finset.sum_ite_eq', Finset.mem_range,
            hA, hB]
        · simp [hiA, hiB]

theorem rowsum_swap (cells : List CellFields) (faces : List InitFace)
    (N i : ℕ) :
    Finset.sum (Finset.range N)
        (fun j => (faces.map (fun f => entryContrib cells f i j)).sum) =
      (faces.map (fun f =>
        Finset.sum (Finset.range N) (fun j => entryContrib cells f i j))).sum := by
  induction faces with
  | nil => simp
  | cons f rest ih =>
      simp only [List.map_cons, List.sum_cons, Finset.sum_add_distrib]
      rw [ih]

theorem assembled_rowsum (cells : List CellFields) (faces : List InitFace)
    (N : ℕ) (hb : ∀ f ∈ faces, faceIdxBound cells N f) (i : ℕ) :
    Finset.sum (Finset.range N)
        (fun j => (assembleGlobalSystem cells faces).1 i j) =
      (faces.map (fun f => dirDiagContrib cells f i)).sum := by
  have h1 : Finset.sum (Finset.range N)
      (fun j => (assembleGlobalSystem cells faces).1 i j) =
      Finset.sum (Finset.range N)
        (fun j => (faces.map (fun f => entryContrib cells f i j)).sum) := by
    refine Finset.sum_congr rfl ?_
    intro j _
    exact assembled_entry cells faces i j
  rw [h1, rowsum_swap]
  exact map_sum_congr faces _ _ (fun f hf => entryContrib_rowsum cells N f (hb f hf) i)

/-- The indices handed out by the cell loop, started at counter `gi`, are the
consecutive block `gi, gi+1, …` of length `cells.length`. -/
theorem initCells_globInds (Canal srcFn : ℚ → ℚ → ℚ) (cells : List CellData)
    (gi : ℕ) :
    (initCells Canal srcFn cells gi).map CellFields.globInd =
      List.range' gi cells.length := by
  induction cells generalizing gi with
  | nil => simp [initCells]
  | cons c rest ih => simp [initCells, ih, List.range'_succ]

/-- A mesh containing an internal face whose front cell cannot be resolved
makes the face-initialization loop abort with the topology error. -/
theorem initFaces_error_of_badFace (Canal : ℚ → ℚ → ℚ)
    (cells : List CellFields) (faces : List RawFace)
    (h : ∃ f ∈ faces, f.isBoundary = false ∧ f.frontCell = none) :
    initFaces Canal cells faces = .error .invalidFrontCell := by
  induction faces with
  | nil => simp at h
  | cons f rest ih =>
      obtain ⟨g, hg, hb, hfc⟩ := h
      rcases List.mem_cons.mp hg with hgf | hgr
      · subst hgf
        simp [initFaces, initFace, hb, hfc]
      · cases hinit : initFace Canal cells f with
        | error e =>
            cases e
            simp [initFaces, hinit]
        | ok g0 =>
            have hrest := ih ⟨g, hgr, hb, hfc⟩
            simp [initFaces, hinit, hrest]

theorem calc_tf_negV (D : Mat2) (n d : Vec2) :
    calc_tf D (negV n) d = -calc_tf D n d := by
  simp only [calc_tf, negV]
  ring

theorem interfaceCond_neg_swap (a b : ℚ) :
    interfaceCond (-b) (-a) = interfaceCond a b := by
  simp only [interfaceCond]
  ring_nf

/-- C1 (counterexample): merely swapping the two one-sided transmissibilities
in the stored combination `tfA·tfB/(tfA − tfB)` does not preserve the value:
at `tfA = 2, tfB = 1` the combination is `2`, but swapped it is `-2`. -/
theorem swap_tf_changes_conductivity :
    interfaceCond 2 1 ≠ interfaceCond 1 2 := by
  norm_num [interfaceCond]

/-- C1 (amended): exchanging the roles of the two adjacent cells of an
internal face also flips the shared unit normal (INMOST normals are oriented
from back cell to front cell), so each one-sided transmissibility from
`calc_tf` is negated and the two swap places; under that full exchange the
stored conductivity `tfA·tfB/(tfA − tfB)` is unchanged.  Swapping `tfA` and
`tfB` alone negates it. -/
theorem interface_conductivity_side_symmetric (DA DB : Mat2)
    (n dA dB : Vec2) :
    interfaceCond (calc_tf DB (negV n) dB) (calc_tf DA (negV n) dA) =
      interfaceCond (calc_tf DA n dA) (calc_tf DB n dB) := by
  rw [calc_tf_negV, calc_tf_negV, interfaceCond_neg_swap]

/-- C2: for every 2×2 symmetric tensor `D`, unit normal `n`, and nonzero
displacement `d`, `calc_tf` returns exactly `(D·d)·n / (d·d)`: the inner
product of `D·d` with `n` divided by the squared Euclidean length of
`d`. -/
theorem calc_tf_meets_contract (D : Mat2) (n d : Vec2)
    (hsym : D.a10 = D.a01) (hunit : n.x * n.x + n.y * n.y = 1)
    (hd : ¬(d.x = 0 ∧ d.y = 0)) :
    calc_tf D n d = tfSpec D n d := rfl

/-- C2 witness: the contract evaluated at the identity tensor, the unit
normal `(1,0)` and the displacement `(1,0)`. -/
theorem calc_tf_meets_contract_witness :
    calc_tf wD wN wDisp = tfSpec wD wN wDisp :=
  calc_tf_meets_contract wD wN wDisp rfl (by norm_num [wN]) (by
    norm_num [wDisp])

/-- C3: (1) one assembly step for an internal face with distinct adjacent
global indices adds `conductivity·area` to both diagonal entries
`(idA,idA)`, `(idB,idB)` and subtracts it from both off-diagonal entries
`(idA,idB)`, `(idB,idA)`; (2) the fully assembled matrix is symmetric in
all entries; (3) when an internal face is the only face linking the
distinct global indices `i` and `j`, the assembled entries `(i,j)` and
`(j,i)` both equal the negative of that face's `conductivity·area`. -/
theorem internal_face_stencil_symmetric (cells : List CellFields) :
    (∀ (Mb : (ℕ → ℕ → ℚ) × (ℕ → ℚ)) (g : IFace),
        globIndAt cells g.back ≠ globIndAt cells g.front →
        (assembleFace cells Mb (.int g)).1 (globIndAt cells g.back)
            (globIndAt cells g.back) =
          Mb.1 (globIndAt cells g.back) (globIndAt cells g.back) +
            g.cond * g.area ∧
        (assembleFace cells Mb (.int g)).1 (globIndAt cells g.front)
            (globIndAt cells g.front) =
          Mb.1 (globIndAt cells g.front) (globIndAt cells g.front) +
            g.cond * g.area ∧
        (assembleFace cells Mb (.int g)).1 (globIndAt cells g.back)
            (globIndAt cells g.front) =
          Mb.1 (globIndAt cells g.back) (globIndAt cells g.front) -
            g.cond * g.area ∧
        (assembleFace cells Mb (.int g)).1 (globIndAt cells g.front)
            (globIndAt cells g.back) =
          Mb.1 (globIndAt cells g.front) (globIndAt cells g.back) -
            g.cond * g.area) ∧
    (∀ (faces : List InitFace) (i j : ℕ),
        (assembleGlobalSystem cells faces).1 i j =
          (assembleGlobalSystem cells faces).1 j i) ∧
    (∀ (pre post : List InitFace) (g : IFace) (i j : ℕ),
        i ≠ j → globIndAt cells g.back = i → globIndAt cells g.front = j →
        (∀ f ∈ pre ++ post, ¬ linksPair cells f i j) →
        (assembleGlobalSystem cells (pre ++ InitFace.int g :: post)).1 i j =
            -(g.cond * g.area) ∧
        (assembleGlobalSystem cells (pre ++ InitFace.int g :: post)).1 j i =
            -(g.cond * g.area)) := by
  refine ⟨?_, ?_, ?_⟩
  · intro Mb g hne
    refine ⟨?_, ?_, ?_, ?_⟩ <;>
      rw [assembleFace_fst] <;>
      simp [entryContrib, hne, Ne.symm hne] <;> ring
  · intro faces i j
    rw [assembled_entry, assembled_entry]
    exact map_sum_congr faces _ _ (fun f _ => entryContrib_symm cells f i j)
  · intro pre post g i j hij hgA hgB hothers
    subst hgA
    subst hgB
    have hpre : ∀ f ∈ pre,
        entryContrib cells f (globIndAt cells g.back)
          (globIndAt cells g.front) = 0 := fun f hf =>
      entryContrib_offdiag_zero cells f _ _ hij
        (hothers f (List.mem_append_left post hf))
    have hpost : ∀ f ∈ post,
        entryContrib cells f (globIndAt cells g.back)
          (globIndAt cells g.front) = 0 := fun f hf =>
      entryContrib_offdiag_zero cells f _ _ hij
        (hothers f (List.mem_append_right pre hf))
    have hmain : entryContrib cells (InitFace.int g)
        (globIndAt cells g.back) (globIndAt cells g.front) =
        -(g.cond * g.area) := by
      simp [entryContrib, hij, Ne.symm hij]
    have h1 : (assembleGlobalSystem cells
        (pre ++ InitFace.int g :: post)).1 (globIndAt cells g.back)
        (globIndAt cells g.front) = -(g.cond * g.area) := by
      rw [assembled_entry, List.map_append, List.sum_append, List.map_cons,
        List.sum_cons]
      rw [map_sum_zero pre _ hpre, map_sum_zero post _ hpost, hmain]
      ring
    refine ⟨h1, ?_⟩
    rw [← h1]
    rw [assembled_entry, assembled_entry]
    exact map_sum_congr _ _ _ (fun f _ => entryContrib_symm cells f _ _)

/-- C3 witness: on the two-cell fixture mesh whose only face is the internal
face `wIFace` (conductivity 3, area 2), the assembled entry `(0,1)` equals
`-(3·2)`. -/
theorem internal_face_stencil_symmetric_witness :
    (assembleGlobalSystem wCells
        (([] : List InitFace) ++ InitFace.int wIFace :: [])).1 0 1 =
      -(wIFace.cond * wIFace.area) :=
  ((internal_face_stencil_symmetric wCells).2.2 [] [] wIFace 0 1
    (by norm_num) (by decide) (by decide) (by simp)).1

/-- C4: for a Dirichlet boundary face, one assembly step subtracts `t·A`
from the matrix diagonal at the adjacent cell's global index and
`t·(boundary value)·A` from the right-hand side at that index, and `t` is
precisely `calc_tf` of that cell's tensor, the face unit normal and the
cell-center-to-face-center displacement. -/
theorem dirichlet_face_contribution (cells : List CellFields)
    (Mb : (ℕ → ℕ → ℚ) × (ℕ → ℚ)) (bf : BFace)
    (hdir : bf.bctype = BC_DIR) :
    (assembleFace cells Mb (.bnd bf)).1 (globIndAt cells bf.back)
        (globIndAt cells bf.back) =
      Mb.1 (globIndAt cells bf.back) (globIndAt cells bf.back) -
        bndTf cells bf * bf.area ∧
    (assembleFace cells Mb (.bnd bf)).2 (globIndAt cells bf.back) =
      Mb.2 (globIndAt cells bf.back) -
        bndTf cells bf * bf.bcval * bf.area ∧
    bndTf cells bf =
      calc_tf (buildD (cellAt cells bf.back).tensor) bf.normal
        (displ bf.bary (cellAt cells bf.back).bary) := by
  refine ⟨?_, ?_, rfl⟩
  · rw [assembleFace_fst]
    simp [entryContrib, hdir, BC_DIR, BC_NEUM]
    ring
  · simp [assembleFace, hdir, BC_DIR, BC_NEUM, addV_apply]
    ring

/-- C4 witness: the rhs update evaluated on the fixture Dirichlet face
starting from the all-zero system. -/
theorem dirichlet_face_contribution_witness :
    (assembleFace wCells (fun _ _ => 0, fun _ => 0)
        (InitFace.bnd wBFace)).2 (globIndAt wCells wBFace.back) =
      (fun _ => (0 : ℚ)) (globIndAt wCells wBFace.back) -
        bndTf wCells wBFace * wBFace.bcval * wBFace.area :=
  (dirichlet_face_contribution wCells (fun _ _ => 0, fun _ => 0) wBFace
    rfl).2.1

/-- C5: after assembly, the sum of every matrix row (diagonal plus
off-diagonal entries) equals the sum of the Dirichlet boundary-face
diagonal contributions `-(t·A)` for that row's cell: the internal-face
contributions cancel in each row sum. -/
theorem row_sum_flux_balance (cells : List CellFields)
    (faces : List InitFace) (N : ℕ)
    (hb : ∀ f ∈ faces, faceIdxBound cells N f) (i : ℕ) :
    Finset.sum (Finset.range N)
        (fun j => (assembleGlobalSystem cells faces).1 i j) =
      (faces.map (fun f => dirDiagContrib cells f i)).sum :=
  assembled_rowsum cells faces N hb i

/-- C5 witness: row 0 of the fixture mesh (one internal face, one Dirichlet
face) summed over the 2-cell index range. -/
theorem row_sum_flux_balance_witness :
    Finset.sum (Finset.range 2)
        (fun j => (assembleGlobalSystem wCells wFaces).1 0 j) =
      (wFaces.map (fun f => dirDiagContrib wCells f 0)).sum :=
  row_sum_flux_balance wCells wFaces 2 (by decide) 0

/-- C6: the global indices handed out by the cell loop started at 0 are
pairwise distinct, are exactly the naturals below the number of cells
(contiguous from 0, no gaps, no duplicates), and exactly one index is
produced per cell. -/
theorem global_indices_dense (Canal srcFn : ℚ → ℚ → ℚ)
    (cells : List CellData) :
    ((initCells Canal srcFn cells 0).map CellFields.globInd).Nodup ∧
    (∀ k, k ∈ (initCells Canal srcFn cells 0).map CellFields.globInd ↔
      k < cells.length) ∧
    (initCells Canal srcFn cells 0).length = cells.length := by
  refine ⟨?_, ?_, ?_⟩
  · rw [initCells_globInds]
    exact List.nodup_range' 0 cells.length 1 (by norm_num)
  · intro k
    rw [initCells_globInds, List.mem_range'_1]
    omega
  · have h := congrArg List.length (initCells_globInds Canal srcFn cells 0)
    simpa using h

/-- C7: a mesh with an internal face whose front cell cannot be resolved
makes the whole run abort with the fatal topology exit status 1 during
field initialization: the result is the same for every solver (the solver
is never invoked) and carries no assembled matrix, no right-hand side and
no solution. -/
theorem topology_error_fatal_before_solve (Canal srcFn : ℚ → ℚ → ℚ)
    (rawCells : List CellData) (rawFaces : List RawFace)
    (h : ∃ f ∈ rawFaces, f.isBoundary = false ∧ f.frontCell = none)
    (solve : (ℕ → ℕ → ℚ) → (ℕ → ℚ) → SolveResult) :
    wholeProgram Canal srcFn rawCells rawFaces solve =
      ProgResult.topologyFatal 1 := by
  simp [wholeProgram,
    initFaces_error_of_badFace Canal (initCells Canal srcFn rawCells 0)
      rawFaces h]

/-- C7 witness: a one-face mesh whose single face is internal with an
unresolvable front cell. -/
theorem topology_error_fatal_before_solve_witness :
    wholeProgram (fun _ _ => 0) (fun _ _ => 0) [] [wBadFace] wOkSolver =
      ProgResult.topologyFatal 1 :=
  topology_error_fatal_before_solve (fun _ _ => 0) (fun _ _ => 0) []
    [wBadFace] ⟨wBadFace, by simp, rfl, rfl⟩ wOkSolver

/-- C8: the driver's first two reported diagnostics are always the solver's
iteration count and residual, whatever the outcome; when the solver reports
failure the only further output is the failure reason and the run ends with
exit status 1 and no final state — no solution value is written onto any
cell and no error norm is computed. -/
theorem solver_diagnostics_and_failure (cells : List CellFields)
    (faces : List InitFace)
    (solve : (ℕ → ℕ → ℚ) → (ℕ → ℚ) → SolveResult) :
    (run cells faces solve).1.take 2 =
      [OutputEvent.iterCount (solveOutcome cells faces solve).iterations,
       OutputEvent.residual (solveOutcome cells faces solve).residual] ∧
    ((solveOutcome cells faces solve).solved = false →
      (run cells faces solve).1 =
        [OutputEvent.iterCount (solveOutcome cells faces solve).iterations,
         OutputEvent.residual (solveOutcome cells faces solve).residual,
         OutputEvent.failReason (solveOutcome cells faces solve).reason] ∧
      (run cells faces solve).2 = Except.error 1) := by
  have hrw : solve (assembleGlobalSystem cells faces).1
      (assembleGlobalSystem cells faces).2 = solveOutcome cells faces solve :=
    rfl
  constructor
  · by_cases hs : (solveOutcome cells faces solve).solved <;>
      simp [run, hrw, hs]
  · intro hf
    constructor <;> simp [run, hrw, hf]

/-- C8 witness: the fixture mesh with a solver stub that always fails. -/
theorem solver_diagnostics_and_failure_witness :
    (run wCells wFaces wFailSolver).2 = Except.error 1 :=
  ((solver_diagnostics_and_failure wCells wFaces wFailSolver).2 rfl).2

/-- C9: every boundary face is classified `BC_DIR` with the analytical
solution evaluated at the face barycenter stored as its boundary value, and
no face — boundary or internal — is ever given the `BC_NEUM` classification
by the initializer. -/
theorem boundary_faces_dirichlet_only (Canal : ℚ → ℚ → ℚ)
    (cells : List CellFields) (f : RawFace) (hb : f.isBoundary = true) :
    initFace Canal cells f = Except.ok (InitFace.bnd
      { bctype := BC_DIR, bcval := Canal f.bary.x f.bary.y, bary := f.bary,
        normal := f.normal, area := f.area, back := f.backCell }) ∧
    (∀ (g : RawFace) (r : InitFace), initFace Canal cells g = Except.ok r →
      bctypeOf r ≠ some BC_NEUM) := by
  constructor
  · simp [initFace, hb]
  · intro g r hr
    unfold initFace at hr
    by_cases hgb : g.isBoundary = true
    · rw [if_pos hgb] at hr
      rw [← Except.ok.inj hr]
      simp [bctypeOf, BC_DIR, BC_NEUM]
    · rw [if_neg hgb] at hr
      cases hfc : g.frontCell with
      | none =>
          rw [hfc] at hr
          exact absurd hr (by simp)
      | some fc =>
          rw [hfc] at hr
          rw [← Except.ok.inj hr]
          simp [bctypeOf]

/-- C9 witness: a concrete boundary face with barycenter `(1,2)` under the
analytical-solution stand-in `fun x y => x + y`. -/
theorem boundary_faces_dirichlet_only_witness :
    initFace (fun x y : ℚ => x + y) wCells wBndRaw = Except.ok (InitFace.bnd
      { bctype := BC_DIR,
        bcval := (fun x y : ℚ => x + y) wBndRaw.bary.x wBndRaw.bary.y,
        bary := wBndRaw.bary, normal := wBndRaw.normal, area := wBndRaw.area,
        back := wBndRaw.backCell }) :=
  (boundary_faces_dirichlet_only (fun x y : ℚ => x + y) wCells wBndRaw
    rfl).1

/-- C10: the interface conductivity divides by `tfA - tfB` with no guard:
under real (partial) division it is defined exactly when the two one-sided
transmissibilities differ and is a division by zero whenever they are
equal, yet the initializer processes every internal face unconditionally —
even a face whose two transmissibilities coincide is stored, not
rejected. -/
theorem conductivity_division_unguarded :
    (∀ a b : ℚ, a ≠ b →
      interfaceCondChecked a b = some (interfaceCond a b)) ∧
    (∀ a : ℚ, interfaceCondChecked a a = none) ∧
    (∀ (Canal : ℚ → ℚ → ℚ) (cells : List CellFields) (f : RawFace)
        (fc : ℕ),
      f.isBoundary = false → f.frontCell = some fc →
      internalTfA cells f = internalTfB cells f fc →
      initFace Canal cells f = Except.ok (InitFace.int
        { cond := interfaceCond (internalTfA cells f)
            (internalTfB cells f fc),
          area := f.area, back := f.backCell, front := fc })) := by
  refine ⟨?_, ?_, ?_⟩
  · intro a b hab
    rw [interfaceCondChecked, if_neg (sub_ne_zero_of_ne hab)]
    rfl
  · intro a
    simp [interfaceCondChecked]
  · intro Canal cells f fc hb hfc heq
    simp [initFace, hb, hfc]

/-- C10 witness: the checked division at distinct transmissibilities `2,1`,
at equal transmissibilities `1,1`, and the degenerate fixture face whose
two one-sided transmissibilities are both `1` and which the initializer
still accepts. -/
theorem conductivity_division_unguarded_witness :
    interfaceCondChecked 2 1 = some (interfaceCond 2 1) ∧
    interfaceCondChecked 1 1 = none ∧
    initFace (fun _ _ => 0) wDegCells wDegFace = Except.ok (InitFace.int
      { cond := interfaceCond (internalTfA wDegCells wDegFace)
          (internalTfB wDegCells wDegFace 1),
        area := wDegFace.area, back := wDegFace.backCell, front := 1 }) :=
  ⟨conductivity_division_unguarded.1 2 1 (by norm_num),
   conductivity_division_unguarded.2.1 1,
   conductivity_division_unguarded.2.2 (fun _ _ => 0) wDegCells wDegFace 1
     rfl rfl (by
       norm_num [internalTfA, internalTfB, calc_tf, cellAt, wDegCells,
         wDegFace, buildD, displ])⟩

end DiffusionFVM
